import Mathlib

/-!
Shallow embedding of `lib/eclipse/EclipseState/Schedule/TimeMap.cpp`
(Opm::TimeMap) from the opm-parser repository, together with theorems
checking the natural-language specification against it.

Conventions:
* `std::time_t` is embedded as `Int` (seconds since the Unix epoch).
* Functions that `throw` in C++ return `Except String _`.
* The external ERT calendar utilities `util_make_datetime_utc` /
  `util_set_date_values_utc` (UTC proleptic-Gregorian conversion with
  `mktime`-style wrap-around normalisation of overflowing day counts)
  are embedded with the standard civil-calendar conversion algorithm.
* C++ integer division truncates toward zero, hence `Int.tdiv` below.
-/

namespace OpmTimeMap

instance {ε α : Type} [DecidableEq ε] [DecidableEq α] :
    DecidableEq (Except ε α) := fun x y =>
  match x, y with
  | Except.ok a, Except.ok b =>
    if h : a = b then isTrue (by rw [h])
    else isFalse (fun hc => h (Except.ok.inj hc))
  | Except.error a, Except.error b =>
    if h : a = b then isTrue (by rw [h])
    else isFalse (fun hc => h (Except.error.inj hc))
  | Except.ok _, Except.error _ => isFalse (fun hc => Except.noConfusion hc)
  | Except.error _, Except.ok _ => isFalse (fun hc => Except.noConfusion hc)

/-- Days-from-civil conversion (proleptic Gregorian): the number of days
between 1970-01-01 and `year-month-day`.  The day component is a linear
offset, so an overflowing day (e.g. February 30) wraps into the following
month exactly as `mktime`/`timegm` normalisation does.  Models the interior
of the external ERT utility `util_make_datetime_utc`. -/
def days_from_civil (y0 m d : Int) : Int :=
  let y := if m ≤ 2 then y0 - 1 else y0
  let era := (if 0 ≤ y then y else y - 399).tdiv 400
  let yoe := y - era * 400
  let mp := if 2 < m then m - 3 else m + 9
  let doy := (153 * mp + 2).tdiv 5 + d - 1
  let doe := yoe * 365 + yoe.tdiv 4 - yoe.tdiv 100 + doy
  era * 146097 + doe - 719468

/-- Civil-from-days conversion (proleptic Gregorian), returning
`(year, month, day)` for a day count relative to 1970-01-01. -/
def civil_from_days (z0 : Int) : Int × Int × Int :=
  let z := z0 + 719468
  let era := (if 0 ≤ z then z else z - 146096).tdiv 146097
  let doe := z - era * 146097
  let yoe := (doe - doe.tdiv 1460 + doe.tdiv 36524 - doe.tdiv 146096).tdiv 365
  let y := yoe + era * 400
  let doy := doe - (365 * yoe + yoe.tdiv 4 - yoe.tdiv 100)
  let mp := (5 * doy + 2).tdiv 153
  let d := doy - (153 * mp + 2).tdiv 5 + 1
  let m := if mp < 10 then mp + 3 else mp - 9
  (if m ≤ 2 then y + 1 else y, m, d)

/-- ERT `util_make_datetime_utc(sec, min, hour, mday, month, year)`:
compose a UTC timestamp from calendar components, without validation
(overflowing components wrap forward). -/
def util_make_datetime_utc (sec minute hour mday month year : Int) : Int :=
  days_from_civil year month mday * 86400 + hour * 3600 + minute * 60 + sec

/-- ERT `util_set_date_values_utc(t, &day, &month, &year)`: decompose a UTC
timestamp into calendar components, returned as `(day, month, year)` in the
order of the C out-parameters. -/
def util_set_date_values_utc (t : Int) : Int × Int × Int :=
  let c := civil_from_days (t.fdiv 86400)
  (c.2.2, c.2.1, c.1)

/-- The UTC calendar day-of-month of a timestamp. -/
def utcDay (t : Int) : Int := (util_set_date_values_utc t).1

/-- The UTC calendar month number of a timestamp. -/
def utcMonth (t : Int) : Int := (util_set_date_values_utc t).2.1

/-- The UTC calendar year of a timestamp. -/
def utcYear (t : Int) : Int := (util_set_date_values_utc t).2.2

/-- The state of `Opm::TimeMap`: the timestamp list and the two derived
boundary index vectors `m_first_timestep_months` / `m_first_timestep_years`. -/
structure TimeMap where
  m_timeList : List Int
  m_first_timestep_months : List Nat
  m_first_timestep_years : List Nat
deriving DecidableEq, Repr

namespace TimeMap

/-- Constructor `TimeMap::TimeMap(std::time_t startTime)`. -/
def mk0 (startTime : Int) : TimeMap :=
  { m_timeList := [startTime]
    m_first_timestep_months := []
    m_first_timestep_years := [] }

/-- The C++ `m_timeList.back()` (`m_timeList` is nonempty in every reachable state). -/
def lastTime (tm : TimeMap) : Int := tm.m_timeList.getLastD 0

/-- Method `TimeMap::size()`. -/
def size (tm : TimeMap) : Nat := tm.m_timeList.length

/-- Method `TimeMap::numTimesteps()`: `m_timeList.size() - 1`. -/
def numTimesteps (tm : TimeMap) : Nat := tm.m_timeList.length - 1

/-- Method `TimeMap::addTime(std::time_t newTime)`: refuse a non-increasing
timestamp; otherwise record the new index in the month/year boundary
vectors when the UTC month/year changed, then push the timestamp. -/
def addTime (tm : TimeMap) (newTime : Int) : Except String TimeMap :=
  let lastTime := tm.m_timeList.getLastD 0
  let step := tm.m_timeList.length
  if lastTime < newTime then
    let newDMY := util_set_date_values_utc newTime
    let lastDMY := util_set_date_values_utc lastTime
    Except.ok
      { m_timeList := tm.m_timeList ++ [newTime]
        m_first_timestep_months :=
          if newDMY.2.1 ≠ lastDMY.2.1 then
            tm.m_first_timestep_months ++ [step]
          else tm.m_first_timestep_months
        m_first_timestep_years :=
          if newDMY.2.2 ≠ lastDMY.2.2 then
            tm.m_first_timestep_years ++ [step]
          else tm.m_first_timestep_years }
  else
    Except.error "Times added must be in strictly increasing order."

/-- Method `TimeMap::forward(std::time_t t, int64_t seconds)`. -/
def forward (t seconds : Int) : Int := t + seconds

/-- Method `TimeMap::addTStep(int64_t step)`: `addTime(forward(m_timeList.back(), step))`. -/
def addTStep (tm : TimeMap) (step : Int) : Except String TimeMap :=
  tm.addTime (forward (tm.m_timeList.getLastD 0) step)

/-- Method `TimeMap::operator[](size_t index)`: checked timestamp access. -/
def timeAt (tm : TimeMap) (index : Nat) : Except String Int :=
  if index < tm.m_timeList.length then
    Except.ok (tm.m_timeList.getD index 0)
  else
    Except.error "Index out of range"

/-- Method `TimeMap::getTimeStepLength(size_t tStepIdx)`: the C++ body asserts
`tStepIdx < numTimesteps()` and then returns
`m_timeList[tStepIdx+1] - m_timeList[tStepIdx]`; the assertion failure is
embedded as `none`. -/
def getTimeStepLength (tm : TimeMap) (tStepIdx : Nat) : Option Int :=
  if tStepIdx < tm.numTimesteps then
    some (tm.m_timeList.getD (tStepIdx + 1) 0 - tm.m_timeList.getD tStepIdx 0)
  else
    none

/-- Method `TimeMap::mkdatetime`: compose the timestamp, then check that
decomposing it reproduces the input `(day, month, year)`; on mismatch
(a wrapped-around date such as January 33) throw `invalid_argument`. -/
def mkdatetime (in_year in_month in_day hour minute second : Int) :
    Except String Int :=
  let t := util_make_datetime_utc second minute hour in_day in_month in_year
  let out := util_set_date_values_utc t
  if in_day ≠ out.1 ∨ in_month ≠ out.2.1 ∨ in_year ≠ out.2.2 then
    Except.error "Invalid input arguments for date."
  else
    Except.ok t

/-- Method `TimeMap::mkdate(year, month, day)`. -/
def mkdate (in_year in_month in_day : Int) : Except String Int :=
  mkdatetime in_year in_month in_day 0 0 0

/-- Method `TimeMap::eclipseMonthIndices()`: the static month-name table, as the
association list of its insertions. -/
def eclipseMonthIndices : List (String × Int) :=
  [("JAN", 1), ("FEB", 2), ("MAR", 3), ("APR", 4),
   ("MAI", 5), ("MAY", 5), ("JUN", 6), ("JUL", 7),
   ("JLY", 7), ("AUG", 8), ("SEP", 9), ("OCT", 10),
   ("OKT", 10), ("NOV", 11), ("DEC", 12), ("DES", 12)]

end TimeMap

/-- A `DATES`/`START` record as consumed by `TimeMap::timeFromEclipse`:
day item, month-name item, year item, and the time-of-day components
(the optional `"HH:MM:SS"` string of item 3 after its `sscanf` parse,
defaulting to 0:0:0). -/
structure DeckDateRecord where
  day : Int
  month : String
  year : Int
  hour : Int := 0
  minute : Int := 0
  second : Int := 0
deriving DecidableEq, Repr

namespace TimeMap

/-- Method `TimeMap::timeFromEclipse(const DeckRecord&)`: look the month name up
in the static table (`std::map::at` throws when the key is absent — the
*unknown month name* error) and build the timestamp with `mkdatetime`. -/
def timeFromEclipse (r : DeckDateRecord) : Except String Int :=
  match eclipseMonthIndices.lookup r.month with
  | none => Except.error "unknown month name"
  | some m => mkdatetime r.year m r.day r.hour r.minute r.second

/-- Method `TimeMap::addFromDATESKeyword`: append one timestamp per date record,
in order. -/
def addFromDATESKeyword (tm : TimeMap) (records : List DeckDateRecord) :
    Except String TimeMap :=
  records.foldlM
    (fun acc r => timeFromEclipse r >>= fun nextTime => acc.addTime nextTime)
    tm

/-- Truncation toward zero of a rational number of seconds:
`static_cast<int64_t>(days * 24 * 60 * 60)` in the C++. -/
def truncToInt (q : ℚ) : Int := q.num.tdiv (q.den : Int)

/-- Method `TimeMap::addFromTSTEPKeyword`: for each listed day-count, append one
timestep of `days * 24 * 60 * 60` seconds truncated to an integer. -/
def addFromTSTEPKeyword (tm : TimeMap) (days : List ℚ) :
    Except String TimeMap :=
  days.foldlM (fun acc d => acc.addTStep (truncToInt (d * (24 * 60 * 60)))) tm

end TimeMap

/-- A deck keyword as seen by the `TimeMap(const Deck&)` constructor:
`START`, `TSTEP` and `DATES` carry the fields the constructor reads;
every other keyword is opaque. -/
inductive DeckKw where
  | START (record : DeckDateRecord)
  | TSTEP (days : List ℚ)
  | DATES (records : List DeckDateRecord)
  | OTHER (name : String)
deriving DecidableEq, Repr

namespace TimeMap

/-- The first `START` keyword's record, if any (`Deck::hasKeyword("START")`
/ `Deck::getKeyword("START")`). -/
def deckStart (deck : List DeckKw) : Option DeckDateRecord :=
  deck.findSome? fun k =>
    match k with
    | DeckKw.START r => some r
    | _ => none

/-- Constructor `TimeMap::TimeMap(const Deck&)`: start from the `START` record (or the
default epoch 1983-01-01), then process every `TSTEP` and `DATES` keyword
in deck order, ignoring all others. -/
def ofDeck (deck : List DeckKw) : Except String TimeMap :=
  (match deckStart deck with
   | some r => timeFromEclipse r
   | none => mkdate 1983 1 1) >>= fun startTime =>
  deck.foldlM
    (fun tm k =>
      match k with
      | DeckKw.TSTEP days => tm.addFromTSTEPKeyword days
      | DeckKw.DATES records => tm.addFromDATESKeyword records
      | _ => Except.ok tm)
    (mk0 startTime)

/-- Method `TimeMap::closest(vec, value)`: `std::lower_bound` on the sorted
vector — the first element that is not less than `value` — and `0` when
no such element exists. -/
def closest (vec : List Nat) (value : Nat) : Nat :=
  match vec.find? (fun x => decide (value ≤ x)) with
  | some x => x
  | none => 0

/-- The final check of `TimeMap::isTimestepInFreqSequence`, for iterator
positions `ci_timestep` and `ci_start_timestep`:
`if (ci_timestep >= ci_start_timestep) { int dist = std::distance(...) + 1;
if ((dist % frequency) == 0) ... }`. -/
def freqDistOk (ci_timestep ci_start_timestep frequency : Nat) : Bool :=
  if ci_start_timestep ≤ ci_timestep then
    decide ((ci_timestep - ci_start_timestep + 1) % frequency = 0)
  else false

/-- Method `TimeMap::isTimestepInFreqSequence(timestep, start_timestep, frequency,
years)`: positions play the role of the C++ iterators (`List.findIdx`
returns the length, i.e. `end()`, when the element is absent); the final
distance check (run when `start_ts_in_timesteps`) is `freqDistOk`, applied
in each of the two branches that establish an anchor iterator. -/
def isTimestepInFreqSequence (tm : TimeMap)
    (timestep start_timestep frequency : Nat) (years : Bool) : Bool :=
  let timesteps :=
    if years then tm.m_first_timestep_years else tm.m_first_timestep_months
  let ci_timestep := timesteps.findIdx (fun x => decide (x = timestep))
  let ci_start0 := timesteps.findIdx (fun x => decide (x = start_timestep))
  if ci_start0 ≠ timesteps.length then
    freqDistOk ci_timestep ci_start0 frequency
  else
    let new_start := closest timesteps start_timestep
    if new_start ≠ 0 then
      freqDistOk ci_timestep
        (timesteps.findIdx (fun x => decide (x = new_start))) frequency
    else false

/-- Method `TimeMap::isTimestepInFirstOfMonthsYearsSequence(timestep, years,
start_timestep, frequency)`. -/
def isTimestepInFirstOfMonthsYearsSequence (tm : TimeMap)
    (timestep : Nat) (years : Bool) (start_timestep frequency : Nat) : Bool :=
  let timesteps :=
    if years then tm.m_first_timestep_years else tm.m_first_timestep_months
  if timesteps.contains timestep then
    if frequency ≤ 1 then true
    else tm.isTimestepInFreqSequence timestep start_timestep frequency years
  else false

/-- The Timeline invariant of the specification: the timestamp sequence is
strictly increasing and nonempty, and both derived boundary index vectors
are strictly increasing with every element `i` satisfying
`0 < i < m_timeList.length`. -/
def Inv (tm : TimeMap) : Prop :=
  1 ≤ tm.m_timeList.length ∧
  tm.m_timeList.Sorted (· < ·) ∧
  tm.m_first_timestep_months.Sorted (· < ·) ∧
  (∀ i ∈ tm.m_first_timestep_months, 0 < i ∧ i < tm.m_timeList.length) ∧
  tm.m_first_timestep_years.Sorted (· < ·) ∧
  (∀ i ∈ tm.m_first_timestep_years, 0 < i ∧ i < tm.m_timeList.length)

instance (tm : TimeMap) : Decidable tm.Inv := by
  unfold TimeMap.Inv
  exact inferInstance

end TimeMap

namespace TimeMap

lemma addTime_ok {tm tm' : TimeMap} {t : Int}
    (h : tm.addTime t = Except.ok tm') :
    tm.lastTime < t ∧
    tm'.m_timeList = tm.m_timeList ++ [t] ∧
    tm'.m_first_timestep_months =
      (if utcMonth t ≠ utcMonth tm.lastTime
       then tm.m_first_timestep_months ++ [tm.size]
       else tm.m_first_timestep_months) ∧
    tm'.m_first_timestep_years =
      (if utcYear t ≠ utcYear tm.lastTime
       then tm.m_first_timestep_years ++ [tm.size]
       else tm.m_first_timestep_years) := by
  unfold addTime at h
  simp only [utcMonth, utcYear, lastTime, size] at *
  split at h
  · injection h with h
    subst h
    refine ⟨by assumption, rfl, rfl, rfl⟩
  · cases h

lemma addTime_le_error {tm : TimeMap} {t : Int} (h : t ≤ tm.lastTime) :
    tm.addTime t =
      Except.error "Times added must be in strictly increasing order." := by
  unfold addTime
  rw [if_neg]
  simpa [lastTime] using h

end TimeMap

/-- C3: appending a timestamp `t` that is not strictly greater than the
current last timestamp fails with the ordering-violation error.  The
embedding is pure state passing, so the failing call returns no new state:
the caller's Timeline (timestamp list, first-of-month set, first-of-year
set) is untouched. -/
theorem spec_C3_append_ordering_violation (tm : TimeMap) (t : Int)
    (h : t ≤ tm.lastTime) :
    tm.addTime t =
      Except.error "Times added must be in strictly increasing order." :=
  TimeMap.addTime_le_error h

/-- Witness for C3 at a concrete input. -/
theorem spec_C3_witness :
    (TimeMap.mk0 7).addTime 7 =
      Except.error "Times added must be in strictly increasing order." :=
  spec_C3_append_ordering_violation (TimeMap.mk0 7) 7 (by decide)

/-- C10: `addTStep` (the `appendDuration` of the spec) with a duration
`delta ≤ 0` fails with the ordering-violation error, because the computed
timestamp `last + delta` is not strictly greater than the last timestamp. -/
theorem spec_C10_nonpositive_duration (tm : TimeMap) (delta : Int)
    (h : delta ≤ 0) :
    tm.addTStep delta =
      Except.error "Times added must be in strictly increasing order." := by
  unfold TimeMap.addTStep
  exact TimeMap.addTime_le_error (by simp [TimeMap.forward, TimeMap.lastTime]; omega)

/-- Witness for C10 at a concrete input (a TSTEP day-count of 0). -/
theorem spec_C10_witness :
    (TimeMap.mk0 100).addTStep 0 =
      Except.error "Times added must be in strictly increasing order." :=
  spec_C10_nonpositive_duration (TimeMap.mk0 100) 0 (by decide)

/-- C9: `getTimeStepLength` fails (the C++ assertion `tStepIdx <
numTimesteps()` fires) when the index is at least `numTimesteps`, and for
every smaller index it returns `timestampAt(index+1) - timestampAt(index)`. -/
theorem spec_C9_step_length (tm : TimeMap) (i : Nat) :
    (tm.numTimesteps ≤ i → tm.getTimeStepLength i = none) ∧
    (i < tm.numTimesteps →
      ∃ a b, tm.timeAt i = Except.ok a ∧ tm.timeAt (i + 1) = Except.ok b ∧
        tm.getTimeStepLength i = some (b - a)) := by
  constructor
  · intro h
    unfold TimeMap.getTimeStepLength
    rw [if_neg (Nat.not_lt.mpr h)]
  · intro h
    have h1 : i < tm.m_timeList.length := by
      unfold TimeMap.numTimesteps at h; omega
    have h2 : i + 1 < tm.m_timeList.length := by
      unfold TimeMap.numTimesteps at h; omega
    refine ⟨tm.m_timeList.getD i 0, tm.m_timeList.getD (i + 1) 0, ?_, ?_, ?_⟩
    · unfold TimeMap.timeAt; rw [if_pos h1]
    · unfold TimeMap.timeAt; rw [if_pos h2]
    · unfold TimeMap.getTimeStepLength; rw [if_pos h]

/-- Witness for C9 at concrete inputs. -/
theorem spec_C9_witness :
    ((⟨[0, 10, 30], [], []⟩ : TimeMap).getTimeStepLength 2 = none) ∧
    (∃ a b, (⟨[0, 10, 30], [], []⟩ : TimeMap).timeAt 1 = Except.ok a ∧
      (⟨[0, 10, 30], [], []⟩ : TimeMap).timeAt 2 = Except.ok b ∧
      (⟨[0, 10, 30], [], []⟩ : TimeMap).getTimeStepLength 1 = some (b - a)) :=
  ⟨(spec_C9_step_length ⟨[0, 10, 30], [], []⟩ 2).1 (by decide),
   (spec_C9_step_length ⟨[0, 10, 30], [], []⟩ 1).2 (by decide)⟩

/-- C5: a successful append of `t` after previous last timestamp `p`
appends the new entry's index (the old length) to the first-of-month index
vector exactly when the UTC calendar month numbers of `t` and `p` differ,
and to the first-of-year vector exactly when the UTC calendar years
differ; both vectors are extended incrementally (the old vector is kept as
a prefix, never rebuilt), and the timestamp is appended. -/
theorem spec_C5_boundary_update (tm tm' : TimeMap) (t : Int)
    (h : tm.addTime t = Except.ok tm') :
    tm'.m_timeList = tm.m_timeList ++ [t] ∧
    tm'.m_first_timestep_months =
      (if utcMonth t ≠ utcMonth tm.lastTime
       then tm.m_first_timestep_months ++ [tm.size]
       else tm.m_first_timestep_months) ∧
    tm'.m_first_timestep_years =
      (if utcYear t ≠ utcYear tm.lastTime
       then tm.m_first_timestep_years ++ [tm.size]
       else tm.m_first_timestep_years) :=
  (TimeMap.addTime_ok h).2

/-- Witness for C5 at a concrete input: appending 1970-02-10 after
1970-01-01 records a month boundary but no year boundary. -/
theorem spec_C5_witness :
    (⟨[0, 86400 * 40], [1], []⟩ : TimeMap).m_timeList = [0] ++ [86400 * 40] ∧
    (⟨[0, 86400 * 40], [1], []⟩ : TimeMap).m_first_timestep_months =
      (if utcMonth (86400 * 40) ≠ utcMonth (TimeMap.mk0 0).lastTime
       then (TimeMap.mk0 0).m_first_timestep_months ++ [(TimeMap.mk0 0).size]
       else (TimeMap.mk0 0).m_first_timestep_months) ∧
    (⟨[0, 86400 * 40], [1], []⟩ : TimeMap).m_first_timestep_years =
      (if utcYear (86400 * 40) ≠ utcYear (TimeMap.mk0 0).lastTime
       then (TimeMap.mk0 0).m_first_timestep_years ++ [(TimeMap.mk0 0).size]
       else (TimeMap.mk0 0).m_first_timestep_years) :=
  spec_C5_boundary_update (TimeMap.mk0 0) ⟨[0, 86400 * 40], [1], []⟩
    (86400 * 40) (by decide)

/-- C6: date construction succeeds exactly when decomposing the composed
timestamp reproduces the input `(day, month, year)`; on any mismatch it
fails with the invalid-date error instead of silently wrapping into the
next month, and in particular (2021, 2, 30) fails. -/
theorem spec_C6_date_validation :
    (∀ y m d hh mi ss,
      ((∃ t, TimeMap.mkdatetime y m d hh mi ss = Except.ok t) ↔
        util_set_date_values_utc (util_make_datetime_utc ss mi hh d m y) =
          (d, m, y)) ∧
      (util_set_date_values_utc (util_make_datetime_utc ss mi hh d m y) ≠
          (d, m, y) →
        TimeMap.mkdatetime y m d hh mi ss =
          Except.error "Invalid input arguments for date.")) ∧
    TimeMap.mkdate 2021 2 30 =
      Except.error "Invalid input arguments for date." := by
  constructor
  · intro y m d hh mi ss
    set out := util_set_date_values_utc (util_make_datetime_utc ss mi hh d m y)
      with hout
    have hunf : TimeMap.mkdatetime y m d hh mi ss =
        if d ≠ out.1 ∨ m ≠ out.2.1 ∨ y ≠ out.2.2 then
          Except.error "Invalid input arguments for date."
        else Except.ok (util_make_datetime_utc ss mi hh d m y) := rfl
    have hiff : out = (d, m, y) ↔ ¬(d ≠ out.1 ∨ m ≠ out.2.1 ∨ y ≠ out.2.2) := by
      constructor
      · intro h
        rw [h]
        simp
      · intro h
        push_neg at h
        obtain ⟨h1, h2, h3⟩ := h
        rw [h1, h2, h3]
    rw [hunf]
    by_cases hc : d ≠ out.1 ∨ m ≠ out.2.1 ∨ y ≠ out.2.2
    · rw [if_pos hc]
      refine ⟨⟨?_, ?_⟩, fun _ => rfl⟩
      · rintro ⟨t, ht⟩
        cases ht
      · intro heq
        exact absurd hc (hiff.mp heq)
    · rw [if_neg hc]
      exact ⟨⟨fun _ => hiff.mpr hc, fun _ => ⟨_, rfl⟩⟩,
        fun hne => absurd (hiff.mpr hc) hne⟩
  · decide

/-- Witness for C6's mismatch clause at the concrete invalid date
(2021, 2, 30). -/
theorem spec_C6_witness :
    TimeMap.mkdatetime 2021 2 30 0 0 0 =
      Except.error "Invalid input arguments for date." :=
  (spec_C6_date_validation.1 2021 2 30 0 0 0).2 (by decide)

lemma except_bind_ok {ε α β : Type} (a : α) (f : α → Except ε β) :
    (Except.ok a >>= f) = f a := rfl

lemma except_bind_error {ε α β : Type} (e : ε) (f : α → Except ε β) :
    (Except.error e >>= f : Except ε β) = Except.error e := rfl

lemma except_pure {ε β : Type} (b : β) : (pure b : Except ε β) = Except.ok b :=
  rfl

/-- The sequence of timestamps produced by a TSTEP keyword with day-counts
`days`, starting after last timestamp `last`: each entry adds
`trunc(days * 86400)` seconds to its predecessor. -/
def tstepTimes (last : Int) : List ℚ → List Int
  | [] => []
  | d :: ds =>
    (last + TimeMap.truncToInt (d * (24 * 60 * 60))) ::
      tstepTimes (last + TimeMap.truncToInt (d * (24 * 60 * 60))) ds

lemma addFromTSTEPKeyword_ok :
    ∀ (days : List ℚ) (tm tm' : TimeMap),
      tm.addFromTSTEPKeyword days = Except.ok tm' →
      tm'.m_timeList = tm.m_timeList ++ tstepTimes tm.lastTime days := by
  intro days
  induction days with
  | nil =>
    intro tm tm' h
    unfold TimeMap.addFromTSTEPKeyword at h
    rw [List.foldlM_nil, except_pure] at h
    injection h with h
    subst h
    simp [tstepTimes]
  | cons d ds ih =>
    intro tm tm' h
    unfold TimeMap.addFromTSTEPKeyword at h
    simp only [List.foldlM_cons] at h
    cases hfa : tm.addTStep (TimeMap.truncToInt (d * (24 * 60 * 60))) with
    | error e =>
      rw [hfa, except_bind_error] at h
      cases h
    | ok tm₁ =>
      simp only [hfa, except_bind_ok] at h
      have h1 := TimeMap.addTime_ok hfa
      have hlist : tm₁.m_timeList =
          tm.m_timeList ++
            [tm.lastTime + TimeMap.truncToInt (d * (24 * 60 * 60))] := by
        have := h1.2.1
        simpa [TimeMap.forward, TimeMap.lastTime] using this
      have hlast : tm₁.lastTime =
          tm.lastTime + TimeMap.truncToInt (d * (24 * 60 * 60)) := by
        show tm₁.m_timeList.getLastD 0 = _
        rw [hlist]
        exact List.getLastD_concat _ _ _
      have ih' := ih tm₁ tm' h
      rw [ih', hlist, hlast]
      simp [tstepTimes, List.append_assoc]

lemma rat_mul_10 : ((10 : ℚ) * (24 * 60 * 60)) = 864000 := by norm_num

lemma rat_mul_55 : ((5.5 : ℚ) * (24 * 60 * 60)) = 475200 := by norm_num

lemma trunc_864000 : TimeMap.truncToInt (864000 : ℚ) = 864000 := by
  have h1 : ((864000 : ℚ)).num = 864000 := by norm_num
  have h2 : ((864000 : ℚ)).den = 1 := by norm_num
  unfold TimeMap.truncToInt
  rw [h1, h2]
  decide

lemma trunc_475200 : TimeMap.truncToInt (475200 : ℚ) = 475200 := by
  have h1 : ((475200 : ℚ)).num = 475200 := by norm_num
  have h2 : ((475200 : ℚ)).den = 1 := by norm_num
  unfold TimeMap.truncToInt
  rw [h1, h2]
  decide

lemma tstep_concrete :
    (TimeMap.mk0 946684800).addFromTSTEPKeyword [10, 5.5] =
      Except.ok ⟨[946684800, 947548800, 948024000], [], []⟩ := by
  have e2 : (TimeMap.mk0 946684800).addTStep 864000 =
      Except.ok ⟨[946684800, 947548800], [], []⟩ := by decide
  have e3 : (⟨[946684800, 947548800], [], []⟩ : TimeMap).addTStep 475200 =
      Except.ok ⟨[946684800, 947548800, 948024000], [], []⟩ := by decide
  unfold TimeMap.addFromTSTEPKeyword
  simp only [List.foldlM_cons, List.foldlM_nil, rat_mul_10, rat_mul_55,
    trunc_864000, trunc_475200, e2, e3, except_bind_ok, except_pure]

lemma ofDeck_concrete :
    TimeMap.ofDeck
        [DeckKw.START ⟨1, "JAN", 2000, 0, 0, 0⟩, DeckKw.TSTEP [10, 5.5]] =
      Except.ok ⟨[946684800, 947548800, 948024000], [], []⟩ := by
  have hs : TimeMap.deckStart
      [DeckKw.START ⟨1, "JAN", 2000, 0, 0, 0⟩, DeckKw.TSTEP [10, 5.5]] =
      some ⟨1, "JAN", 2000, 0, 0, 0⟩ := by decide
  have e1 : TimeMap.timeFromEclipse ⟨1, "JAN", 2000, 0, 0, 0⟩ =
      Except.ok 946684800 := by decide
  unfold TimeMap.ofDeck
  simp only [hs, e1, List.foldlM_cons, List.foldlM_nil, except_bind_ok,
    except_pure, tstep_concrete]

/-- C7: a TSTEP keyword appends, for each listed day-count in order, one
timestamp equal to the previous last timestamp plus `trunc(days * 86400)`
seconds; and a Timeline built from a START date plus TSTEP day-counts
`[10.0, 5.5]` has exactly 3 timestamps with step lengths 864000 and
475200 seconds. -/
theorem spec_C7_tstep_semantics :
    (∀ (days : List ℚ) (tm tm' : TimeMap),
      tm.addFromTSTEPKeyword days = Except.ok tm' →
      tm'.m_timeList = tm.m_timeList ++ tstepTimes tm.lastTime days) ∧
    (∃ tm : TimeMap,
      TimeMap.ofDeck
          [DeckKw.START ⟨1, "JAN", 2000, 0, 0, 0⟩, DeckKw.TSTEP [10, 5.5]] =
        Except.ok tm ∧
      tm.size = 3 ∧
      tm.getTimeStepLength 0 = some 864000 ∧
      tm.getTimeStepLength 1 = some 475200) := by
  exact ⟨addFromTSTEPKeyword_ok, ⟨⟨[946684800, 947548800, 948024000], [], []⟩,
    ofDeck_concrete, by decide, by decide, by decide⟩⟩

lemma tstep_concrete0 :
    (TimeMap.mk0 0).addFromTSTEPKeyword [10] =
      Except.ok ⟨[0, 864000], [], []⟩ := by
  have e2 : (TimeMap.mk0 0).addTStep 864000 =
      Except.ok ⟨[0, 864000], [], []⟩ := by decide
  unfold TimeMap.addFromTSTEPKeyword
  simp only [List.foldlM_cons, List.foldlM_nil, rat_mul_10, trunc_864000, e2,
    except_bind_ok, except_pure]

/-- Witness for C7's universally quantified part at a concrete input. -/
theorem spec_C7_witness :
    (⟨[0, 864000], [], []⟩ : TimeMap).m_timeList =
      (TimeMap.mk0 0).m_timeList ++ tstepTimes (TimeMap.mk0 0).lastTime [10] :=
  spec_C7_tstep_semantics.1 [10] (TimeMap.mk0 0) ⟨[0, 864000], [], []⟩
    tstep_concrete0

/-- C8: the static month table maps exactly the listed tokens (the twelve
standard three-letter month names and the four historical synonyms) to
month numbers 1..12, and a date record whose month token is outside the
table fails with the unknown-month-name error. -/
theorem spec_C8_month_table :
    (∀ (s : String) (m : Int),
      TimeMap.eclipseMonthIndices.lookup s = some m ↔
        (s, m) ∈ ([("JAN", 1), ("FEB", 2), ("MAR", 3), ("APR", 4),
          ("MAY", 5), ("JUN", 6), ("JUL", 7), ("AUG", 8), ("SEP", 9),
          ("OCT", 10), ("NOV", 11), ("DEC", 12), ("MAI", 5), ("JLY", 7),
          ("OKT", 10), ("DES", 12)] : List (String × Int))) ∧
    (∀ r : DeckDateRecord,
      r.month ∉ ["JAN", "FEB", "MAR", "APR", "MAY", "JUN", "JUL", "AUG",
        "SEP", "OCT", "NOV", "DEC", "MAI", "JLY", "OKT", "DES"] →
      TimeMap.timeFromEclipse r = Except.error "unknown month name") := by
  constructor
  · intro s m
    simp only [TimeMap.eclipseMonthIndices, List.lookup, List.mem_cons,
      List.not_mem_nil, or_false, Prod.mk.injEq]
    repeat' split
    all_goals simp_all [@eq_comm Int m]
  · intro r hr
    simp only [List.mem_cons, not_or] at hr
    have hnone : TimeMap.eclipseMonthIndices.lookup r.month = none := by
      rw [List.lookup_eq_none_iff]
      intro p hp
      fin_cases hp <;> simp_all
    unfold TimeMap.timeFromEclipse
    rw [hnone]

/-- Witness for C8's second part at a concrete unknown month token. -/
theorem spec_C8_witness :
    TimeMap.timeFromEclipse ⟨15, "FOO", 2000, 0, 0, 0⟩ =
      Except.error "unknown month name" :=
  spec_C8_month_table.2 ⟨15, "FOO", 2000, 0, 0, 0⟩ (by decide)

lemma mem_le_getLastD {l : List Int} (hs : l.Sorted (· < ·)) :
    ∀ x ∈ l, x ≤ l.getLastD 0 := by
  induction l with
  | nil => simp
  | cons a l ih =>
    intro x hx
    rw [List.getLastD_cons]
    have hcons := List.pairwise_cons.mp hs
    rcases List.mem_cons.mp hx with rfl | hx'
    · rcases List.mem_cons.mp (List.getLastD_mem_cons l x) with hgx | hgm
      · rw [hgx]
      · exact le_of_lt (hcons.1 _ hgm)
    · cases l with
      | nil => cases hx'
      | cons b t =>
        have h0 : x ≤ (b :: t).getLastD 0 := ih hcons.2 x hx'
        rw [List.getLastD_cons] at h0 ⊢
        exact h0

lemma addTime_Inv {tm tm' : TimeMap} {t : Int} (hinv : TimeMap.Inv tm)
    (h : tm.addTime t = Except.ok tm') : TimeMap.Inv tm' := by
  obtain ⟨hlen, hsort, hms, hmb, hys, hyb⟩ := hinv
  obtain ⟨hlt, hlist, hmonths, hyears⟩ := TimeMap.addTime_ok h
  have hlast : ∀ x ∈ tm.m_timeList, x < t := by
    intro x hx
    exact lt_of_le_of_lt (mem_le_getLastD hsort x hx) hlt
  have hlen' : tm'.m_timeList.length = tm.m_timeList.length + 1 := by
    rw [hlist]; simp
  refine ⟨?_, ?_, ?_, ?_, ?_, ?_⟩
  · omega
  · rw [hlist]
    refine List.pairwise_append.mpr ⟨hsort, by simp, ?_⟩
    intro x hx y hy
    rw [List.mem_singleton] at hy
    subst hy
    exact hlast x hx
  · rw [hmonths]
    split
    · refine List.pairwise_append.mpr ⟨hms, by simp, ?_⟩
      intro x hx y hy
      rw [List.mem_singleton] at hy
      subst hy
      exact (hmb x hx).2
    · exact hms
  · intro i hi
    rw [hmonths] at hi
    rw [hlen']
    split at hi
    · rcases List.mem_append.mp hi with hi' | hi'
      · have := hmb i hi'
        omega
      · rw [List.mem_singleton] at hi'
        subst hi'
        unfold TimeMap.size
        omega
    · have := hmb i hi
      omega
  · rw [hyears]
    split
    · refine List.pairwise_append.mpr ⟨hys, by simp, ?_⟩
      intro x hx y hy
      rw [List.mem_singleton] at hy
      subst hy
      exact (hyb x hx).2
    · exact hys
  · intro i hi
    rw [hyears] at hi
    rw [hlen']
    split at hi
    · rcases List.mem_append.mp hi with hi' | hi'
      · have := hyb i hi'
        omega
      · rw [List.mem_singleton] at hi'
        subst hi'
        unfold TimeMap.size
        omega
    · have := hyb i hi
      omega

lemma addTStep_Inv {tm tm' : TimeMap} {s : Int} (hinv : TimeMap.Inv tm)
    (h : tm.addTStep s = Except.ok tm') : TimeMap.Inv tm' :=
  addTime_Inv hinv h

lemma foldlM_except_inv {α β : Type} (P : β → Prop)
    (f : β → α → Except String β)
    (hf : ∀ b a b', P b → f b a = Except.ok b' → P b') :
    ∀ (l : List α) (b b' : β), P b → l.foldlM f b = Except.ok b' → P b' := by
  intro l
  induction l with
  | nil =>
    intro b b' hb h
    rw [List.foldlM_nil, except_pure] at h
    injection h with h
    subst h
    exact hb
  | cons a l ih =>
    intro b b' hb h
    simp only [List.foldlM_cons] at h
    cases hfa : f b a with
    | error e =>
      rw [hfa, except_bind_error] at h
      cases h
    | ok b₁ =>
      simp only [hfa, except_bind_ok] at h
      exact ih b₁ b' (hf b a b₁ hb hfa) h

lemma addFromTSTEPKeyword_Inv {tm tm' : TimeMap} {days : List ℚ}
    (hinv : TimeMap.Inv tm)
    (h : tm.addFromTSTEPKeyword days = Except.ok tm') : TimeMap.Inv tm' := by
  unfold TimeMap.addFromTSTEPKeyword at h
  exact foldlM_except_inv TimeMap.Inv _
    (fun b a b' hb hba => addTStep_Inv hb hba) days tm tm' hinv h

lemma addFromDATESKeyword_Inv {tm tm' : TimeMap} {records : List DeckDateRecord}
    (hinv : TimeMap.Inv tm)
    (h : tm.addFromDATESKeyword records = Except.ok tm') : TimeMap.Inv tm' := by
  unfold TimeMap.addFromDATESKeyword at h
  refine foldlM_except_inv TimeMap.Inv _ ?_ records tm tm' hinv h
  intro b r b' hb hbr
  cases hfe : TimeMap.timeFromEclipse r with
  | error e =>
    rw [hfe, except_bind_error] at hbr
    cases hbr
  | ok time =>
    simp only [hfe, except_bind_ok] at hbr
    exact addTime_Inv hb hbr

lemma mk0_Inv (t : Int) : TimeMap.Inv (TimeMap.mk0 t) := by
  refine ⟨?_, ?_, ?_, ?_, ?_, ?_⟩ <;> simp [TimeMap.mk0]

lemma ofDeck_Inv {deck : List DeckKw} {tm : TimeMap}
    (h : TimeMap.ofDeck deck = Except.ok tm) : TimeMap.Inv tm := by
  unfold TimeMap.ofDeck at h
  cases hE : (match TimeMap.deckStart deck with
    | some r => TimeMap.timeFromEclipse r
    | none => TimeMap.mkdate 1983 1 1) with
  | error e =>
    rw [hE, except_bind_error] at h
    cases h
  | ok t0 =>
    simp only [hE, except_bind_ok] at h
    refine foldlM_except_inv TimeMap.Inv _ ?_ deck (TimeMap.mk0 t0) tm
      (mk0_Inv t0) h
    intro b k b' hb hbk
    cases k with
    | TSTEP days => exact addFromTSTEPKeyword_Inv hb hbk
    | DATES records => exact addFromDATESKeyword_Inv hb hbk
    | START r =>
      injection hbk with hbk
      subst hbk
      exact hb
    | OTHER n =>
      injection hbk with hbk
      subst hbk
      exact hb

/-- C4: every Timeline operation — construction from a start timestamp,
construction from a deck's keyword stream, `addTime` (append), and
`addTStep` (appendDuration) — yields or preserves the invariant: the
timestamp sequence is strictly increasing of length at least 1, and both
boundary index vectors are strictly increasing with every element `i`
satisfying `0 < i < length`. -/
theorem spec_C4_invariants :
    (∀ t : Int, TimeMap.Inv (TimeMap.mk0 t)) ∧
    (∀ (deck : List DeckKw) (tm : TimeMap),
      TimeMap.ofDeck deck = Except.ok tm → TimeMap.Inv tm) ∧
    (∀ (tm : TimeMap) (t : Int) (tm' : TimeMap),
      TimeMap.Inv tm → tm.addTime t = Except.ok tm' → TimeMap.Inv tm') ∧
    (∀ (tm : TimeMap) (s : Int) (tm' : TimeMap),
      TimeMap.Inv tm → tm.addTStep s = Except.ok tm' → TimeMap.Inv tm') :=
  ⟨mk0_Inv, fun _ _ h => ofDeck_Inv h,
   fun _ _ _ hinv h => addTime_Inv hinv h,
   fun _ _ _ hinv h => addTStep_Inv hinv h⟩

/-- Witness for C4 at concrete inputs. -/
theorem spec_C4_witness :
    TimeMap.Inv (TimeMap.mk0 0) ∧
    TimeMap.Inv ⟨[0, 3456000], [1], []⟩ :=
  ⟨spec_C4_invariants.1 0,
   spec_C4_invariants.2.2.1 (TimeMap.mk0 0) 3456000 ⟨[0, 3456000], [1], []⟩
     (spec_C4_invariants.1 0) (by decide)⟩

/-- The position of `x` in `S` (0-based) plus 1: the 1-based rank of `x`
within the boundary index set `S` used by the spec's periodic-boundary
rule. -/
def rankIn (S : List Nat) (x : Nat) : Nat :=
  S.findIdx (fun y => decide (y = x)) + 1

/-- Value `a` is the smallest element of `S` that is greater than or equal to
`v` — the spec's anchor for the periodic-boundary rule. -/
def IsLeastGE (S : List Nat) (v a : Nat) : Prop :=
  a ∈ S ∧ v ≤ a ∧ ∀ b ∈ S, v ≤ b → a ≤ b

lemma isLeastGE_self {S : List Nat} {v : Nat} (hv : v ∈ S) :
    IsLeastGE S v v :=
  ⟨hv, Nat.le_refl v, fun _ _ hvb => hvb⟩

lemma isLeastGE_unique {S : List Nat} {v a b : Nat}
    (ha : IsLeastGE S v a) (hb : IsLeastGE S v b) : a = b :=
  Nat.le_antisymm (ha.2.2 b hb.1 hb.2.1) (hb.2.2 a ha.1 ha.2.1)

lemma find_ge_least {S : List Nat} (hsort : S.Sorted (· < ·)) {v a : Nat}
    (h : S.find? (fun x => decide (v ≤ x)) = some a) : IsLeastGE S v a := by
  induction S with
  | nil => cases h
  | cons c T ih =>
    by_cases hvc : v ≤ c
    · rw [List.find?_cons_of_pos (p := fun x => decide (v ≤ x)) _
        (decide_eq_true hvc)] at h
      injection h with h
      subst h
      refine ⟨List.mem_cons_self _ _, hvc, ?_⟩
      intro b hb hvb
      rcases List.mem_cons.mp hb with rfl | hb'
      · exact Nat.le_refl _
      · exact Nat.le_of_lt (List.rel_of_pairwise_cons hsort hb')
    · rw [List.find?_cons_of_neg _ (by simpa using hvc)] at h
      have hT := (List.pairwise_cons.mp hsort).2
      obtain ⟨haT, hva, hmin⟩ := ih hT h
      refine ⟨List.mem_cons_of_mem _ haT, hva, ?_⟩
      intro b hb hvb
      rcases List.mem_cons.mp hb with rfl | hb'
      · exact absurd hvb hvc
      · exact hmin b hb' hvb

lemma find_ge_of_least {S : List Nat} (hsort : S.Sorted (· < ·)) {v a : Nat}
    (h : IsLeastGE S v a) :
    S.find? (fun x => decide (v ≤ x)) = some a := by
  cases hfind : S.find? (fun x => decide (v ≤ x)) with
  | none =>
    rw [List.find?_eq_none] at hfind
    exact absurd (decide_eq_true h.2.1) (hfind a h.1)
  | some b =>
    have hb := find_ge_least hsort hfind
    rw [isLeastGE_unique hb h]

lemma freqSeq_char_some (tm : TimeMap) (years : Bool) (S : List Nat)
    (hS : (if years then tm.m_first_timestep_years
           else tm.m_first_timestep_months) = S)
    (hsort : S.Sorted (· < ·)) (hpos : ∀ i ∈ S, 0 < i)
    (timestep start_timestep frequency : Nat) {a : Nat}
    (hfind : S.find? (fun x => decide (start_timestep ≤ x)) = some a) :
    tm.isTimestepInFreqSequence timestep start_timestep frequency years =
      TimeMap.freqDistOk (S.findIdx (fun x => decide (x = timestep)))
        (S.findIdx (fun x => decide (x = a))) frequency := by
  simp only [TimeMap.isTimestepInFreqSequence, hS]
  by_cases hstart : start_timestep ∈ S
  · have hlt : S.findIdx (fun x => decide (x = start_timestep)) < S.length :=
      List.findIdx_lt_length.mpr ⟨start_timestep, hstart, by simp⟩
    rw [if_pos (Nat.ne_of_lt hlt)]
    have ha : a = start_timestep :=
      isLeastGE_unique (find_ge_least hsort hfind) (isLeastGE_self hstart)
    rw [ha]
  · have hidx0 : S.findIdx (fun x => decide (x = start_timestep)) = S.length :=
      List.findIdx_eq_length.mpr (fun x hx => by
        simp only [decide_eq_false_iff_not]
        exact fun he => hstart (he ▸ hx))
    rw [if_neg (not_not_intro hidx0)]
    have hcl : TimeMap.closest S start_timestep = a := by
      unfold TimeMap.closest
      rw [hfind]
    have ha0 : a ≠ 0 := by
      have := hpos a (find_ge_least hsort hfind).1
      omega
    rw [hcl, if_pos ha0]

lemma freqSeq_char_none (tm : TimeMap) (years : Bool) (S : List Nat)
    (hS : (if years then tm.m_first_timestep_years
           else tm.m_first_timestep_months) = S)
    (hsort : S.Sorted (· < ·))
    (timestep start_timestep frequency : Nat)
    (hfind : S.find? (fun x => decide (start_timestep ≤ x)) = none) :
    tm.isTimestepInFreqSequence timestep start_timestep frequency years =
      false := by
  have hstart : start_timestep ∉ S := by
    intro hmem
    rw [find_ge_of_least hsort (isLeastGE_self hmem)] at hfind
    cases hfind
  simp only [TimeMap.isTimestepInFreqSequence, hS]
  have hidx0 : S.findIdx (fun x => decide (x = start_timestep)) = S.length :=
    List.findIdx_eq_length.mpr (fun x hx => by
      simp only [decide_eq_false_iff_not]
      exact fun he => hstart (he ▸ hx))
  rw [if_neg (not_not_intro hidx0)]
  have hcl : TimeMap.closest S start_timestep = 0 := by
    unfold TimeMap.closest
    rw [hfind]
  rw [hcl]
  simp

lemma inv_boundary_list {tm : TimeMap} {years : Bool} {S : List Nat}
    (hinv : TimeMap.Inv tm)
    (hS : (if years then tm.m_first_timestep_years
           else tm.m_first_timestep_months) = S) :
    S.Sorted (· < ·) ∧ ∀ i ∈ S, 0 < i := by
  obtain ⟨-, -, hms, hmb, hys, hyb⟩ := hinv
  cases years with
  | false =>
    simp only [Bool.false_eq_true, if_false] at hS
    subst hS
    exact ⟨hms, fun i hi => (hmb i hi).1⟩
  | true =>
    simp only [if_true] at hS
    subst hS
    exact ⟨hys, fun i hi => (hyb i hi).1⟩

/-- C1: for a Timeline with boundary index set `S` (month starts, or year
starts when `usingYears`), `isTimestepInFirstOfMonthsYearsSequence` returns
false when `index ∉ S`; returns true when `index ∈ S` and `frequency ≤ 1`;
and otherwise returns true exactly when an anchor `a` (the least element of
`S` that is `≥ periodStartIndex`) exists, its rank does not exceed
`index`'s, and the 1-based rank of `index` within `S` counted inclusively
from the anchor's rank is a multiple of `frequency`.  The spec's concrete
regression case (month starts `{0,3,6,9}`, query `(6, false, 0, 2)`) gives
false. -/
theorem spec_C1_report_boundary (tm : TimeMap) (years : Bool) (S : List Nat)
    (hinv : TimeMap.Inv tm)
    (hS : (if years then tm.m_first_timestep_years
           else tm.m_first_timestep_months) = S)
    (index start_timestep frequency : Nat) :
    (index ∉ S →
      tm.isTimestepInFirstOfMonthsYearsSequence index years start_timestep
        frequency = false) ∧
    (index ∈ S → frequency ≤ 1 →
      tm.isTimestepInFirstOfMonthsYearsSequence index years start_timestep
        frequency = true) ∧
    (index ∈ S → 1 < frequency →
      (tm.isTimestepInFirstOfMonthsYearsSequence index years start_timestep
          frequency = true ↔
        ∃ a, IsLeastGE S start_timestep a ∧ rankIn S a ≤ rankIn S index ∧
          (rankIn S index - rankIn S a + 1) % frequency = 0)) ∧
    (⟨[], [0, 3, 6, 9], []⟩ : TimeMap).isTimestepInFirstOfMonthsYearsSequence
        6 false 0 2 = false := by
  have hSP := inv_boundary_list hinv hS
  refine ⟨?_, ?_, ?_, by decide⟩
  · intro hni
    simp only [TimeMap.isTimestepInFirstOfMonthsYearsSequence, hS]
    rw [if_neg (fun hc => hni (List.elem_iff.mp hc))]
  · intro hi hfreq
    simp only [TimeMap.isTimestepInFirstOfMonthsYearsSequence, hS]
    rw [if_pos (List.elem_iff.mpr hi), if_pos hfreq]
  · intro hi hfreq
    simp only [TimeMap.isTimestepInFirstOfMonthsYearsSequence, hS]
    rw [if_pos (List.elem_iff.mpr hi), if_neg (by omega)]
    cases hfind : S.find? (fun x => decide (start_timestep ≤ x)) with
    | none =>
      rw [freqSeq_char_none tm years S hS hSP.1 index start_timestep
        frequency hfind]
      constructor
      · intro h
        cases h
      · rintro ⟨a, ha, -, -⟩
        rw [find_ge_of_least hSP.1 ha] at hfind
        cases hfind
    | some a =>
      rw [freqSeq_char_some tm years S hS hSP.1 hSP.2 index start_timestep
        frequency hfind]
      have hlst := find_ge_least hSP.1 hfind
      constructor
      · intro htrue
        unfold TimeMap.freqDistOk at htrue
        split at htrue
        · next hle =>
          refine ⟨a, hlst, by unfold rankIn; omega, ?_⟩
          have hm := of_decide_eq_true htrue
          have harg : rankIn S index - rankIn S a + 1 =
              S.findIdx (fun x => decide (x = index)) -
              S.findIdx (fun x => decide (x = a)) + 1 := by
            unfold rankIn
            omega
          rw [harg]
          exact hm
        · cases htrue
      · rintro ⟨a', ha', hle, hmod⟩
        have haa : a' = a := isLeastGE_unique ha' hlst
        subst haa
        unfold TimeMap.freqDistOk
        rw [if_pos (show S.findIdx (fun x => decide (x = a')) ≤
            S.findIdx (fun x => decide (x = index)) from by
          unfold rankIn at hle
          omega)]
        apply decide_eq_true
        have harg : S.findIdx (fun x => decide (x = index)) -
            S.findIdx (fun x => decide (x = a')) + 1 =
            rankIn S index - rankIn S a' + 1 := by
          unfold rankIn
          omega
        rw [harg]
        exact hmod

/-- Witness for C1 at concrete inputs: with month-start set `[1, 2]`,
index 3 is not a boundary, so the query returns false. -/
theorem spec_C1_witness :
    TimeMap.isTimestepInFirstOfMonthsYearsSequence
      ⟨[0, 3456000, 6912000], [1, 2], []⟩ 3 false 1 2 = false :=
  (spec_C1_report_boundary ⟨[0, 3456000, 6912000], [1, 2], []⟩ false [1, 2]
    (by decide) rfl 3 1 2).1 (by decide)

/-- C2: for a periodic-boundary query with `frequency > 1` and `index ∈ S`,
when `periodStartIndex ∉ S` the anchor used for rank counting is the least
element of `S` that is `≥ periodStartIndex` (the query answers exactly as
if that element had been passed as the period start), and when no such
element exists the query returns false. -/
theorem spec_C2_anchor_fallback (tm : TimeMap) (years : Bool) (S : List Nat)
    (hinv : TimeMap.Inv tm)
    (hS : (if years then tm.m_first_timestep_years
           else tm.m_first_timestep_months) = S)
    (index start_timestep frequency : Nat)
    (hfreq : 1 < frequency) (hidx : index ∈ S)
    (hstart : start_timestep ∉ S) :
    (∀ a, IsLeastGE S start_timestep a →
      tm.isTimestepInFirstOfMonthsYearsSequence index years start_timestep
          frequency =
        tm.isTimestepInFirstOfMonthsYearsSequence index years a frequency) ∧
    ((∀ b ∈ S, b < start_timestep) →
      tm.isTimestepInFirstOfMonthsYearsSequence index years start_timestep
        frequency = false) := by
  have hSP := inv_boundary_list hinv hS
  constructor
  · intro a ha
    have hfs : tm.isTimestepInFreqSequence index start_timestep frequency
        years = tm.isTimestepInFreqSequence index a frequency years := by
      rw [freqSeq_char_some tm years S hS hSP.1 hSP.2 index start_timestep
            frequency (find_ge_of_least hSP.1 ha),
          freqSeq_char_some tm years S hS hSP.1 hSP.2 index a frequency
            (find_ge_of_least hSP.1 (isLeastGE_self ha.1))]
    simp only [TimeMap.isTimestepInFirstOfMonthsYearsSequence, hS, hfs]
  · intro hb
    have hnone : S.find? (fun x => decide (start_timestep ≤ x)) = none :=
      List.find?_eq_none.mpr (fun x hx => by
        simp only [decide_eq_true_eq]
        have := hb x hx
        omega)
    simp only [TimeMap.isTimestepInFirstOfMonthsYearsSequence, hS]
    rw [if_pos (List.elem_iff.mpr hidx), if_neg (by omega)]
    exact freqSeq_char_none tm years S hS hSP.1 index start_timestep
      frequency hnone

/-- Witness for C2 at concrete inputs: with month-start set `[2, 4]` and
`periodStartIndex = 3 ∉ S`, the anchor falls back to 4, and with
`periodStartIndex = 5` past every boundary the query returns false. -/
theorem spec_C2_witness :
    (TimeMap.isTimestepInFirstOfMonthsYearsSequence
        ⟨[0, 3456000, 6912000, 10368000, 13824000], [2, 4], []⟩ 4 false 3 2 =
      TimeMap.isTimestepInFirstOfMonthsYearsSequence
        ⟨[0, 3456000, 6912000, 10368000, 13824000], [2, 4], []⟩ 4 false 4 2) ∧
    TimeMap.isTimestepInFirstOfMonthsYearsSequence
        ⟨[0, 3456000, 6912000, 10368000, 13824000], [2, 4], []⟩ 4 false 5 2 =
      false :=
  ⟨(spec_C2_anchor_fallback
      ⟨[0, 3456000, 6912000, 10368000, 13824000], [2, 4], []⟩ false [2, 4]
      (by decide) rfl 4 3 2 (by decide) (by decide) (by decide)).1 4
      ⟨by decide, by decide, by decide⟩,
   (spec_C2_anchor_fallback
      ⟨[0, 3456000, 6912000, 10368000, 13824000], [2, 4], []⟩ false [2, 4]
      (by decide) rfl 4 5 2 (by decide) (by decide) (by decide)).2
      (by decide)⟩

end OpmTimeMap
